import Mathlib

/-!
Shallow embedding of the cartographer_ros occupancy-grid node
(the anonymous Node in cartographer_occupancy_grid_node.cc) and of the
cartographer_rviz DrawableSubmap (drawable_submap.cc), with proofs about
the pixel-value pipeline, the fetch scheduler, asynchronous fetch
completion, and the alpha fade hysteresis.

Machine integers are modelled as Nat/Int with explicit bounds. The
floating-point cell formula and the alpha arithmetic are modelled over ℚ
(exact rationals): every value those code paths compute is provably far
from a rounding boundary of binary64/binary32 at the granularity the
comparisons use, so the idealisation matches the compiled code.
-/

namespace Cartographer

/-- common::RoundToInt, that is std::lround: round half away from zero. -/
def RoundToInt (x : ℚ) : ℤ :=
  if 0 ≤ x then ⌊x + 1 / 2⌋ else -⌊-x + 1 / 2⌋

/-- Green channel written by the pixel loop of Node::HandleSubmapList: 0 when
the cell was never observed (intensity and alpha bytes both zero), else 255. -/
def observedByte (intensity alpha : ℕ) : ℕ :=
  if intensity = 0 ∧ alpha = 0 then 0 else 255

/-- Pixel packed into the cairo buffer by Node::HandleSubmapList, for byte
inputs: (alpha << 24) | (intensity << 16) | (observed << 8) | 0. The four
fields occupy disjoint bytes, so the bitwise ors equal addition. -/
def packPixel (intensity alpha : ℕ) : ℕ :=
  alpha * 2 ^ 24 + intensity * 2 ^ 16 + observedByte intensity alpha * 2 ^ 8

/-- Value of one cell of the published occupancy grid, computed by
Node::PublishOccupancyGrid from a packed 32-bit pixel: the byte at bits
16..23 is the color (intensity), the byte at bits 8..15 the observed flag;
an unobserved cell reads -1, an observed one RoundToInt((1 - color/255)*100). -/
def cellValue (packed : ℕ) : ℤ :=
  let color : ℕ := packed / 2 ^ 16 % 256
  let observed : ℕ := packed / 2 ^ 8 % 256
  if observed = 0 then -1 else RoundToInt ((1 - (color : ℚ) / 255) * 100)

/-- CHECK_LE(-1, value) and CHECK_GE(100, value) in Node::PublishOccupancyGrid:
a value outside -1..100 aborts the process (none); it is never clamped. -/
def checkValueRange (value : ℤ) : Option ℤ :=
  if -1 ≤ value ∧ value ≤ 100 then some value else none

/-- One iteration of the publish loop of Node::PublishOccupancyGrid: compute
the cell value, then run the fatal range checks. -/
def publishCell (packed : ℕ) : Option ℤ :=
  checkValueRange (cellValue packed)

/-- Pixel loop of Node::PublishOccupancyGrid over a row-major list of packed
pixels; none when a fatal range check fires. -/
def occupancyGridData : List ℕ → Option (List ℤ)
  | [] => some []
  | p :: ps => do
    let v ← publishCell p
    let vs ← occupancyGridData ps
    pure (v :: vs)

/-- One decoded texture of a submap-query response (cartographer_ros submap.h
SubmapTexture): de-interleaved intensity and alpha byte rows plus geometry.
The slice pose is carried as an opaque handle. -/
structure SubmapTexture where
  intensity : List ℕ
  alpha : List ℕ
  width : ℕ
  height : ℕ
  slice_pose : ℤ
  resolution : ℚ
deriving DecidableEq

/-- Decoded submap-query result (cartographer_ros submap.h SubmapTextures):
the response version and the texture list; the first texture is by
convention the highest resolution one and the one consumed. -/
structure SubmapTextures where
  version : ℤ
  textures : List SubmapTexture
deriving DecidableEq

/-- Modelled from the spec: FetchSubmapTextures (declared in
cartographer_ros/submap.h; its implementation, cartographer_ros/submap.cc, is
not among the sources here) performs the blocking SubmapQuery call and decodes
the payload. On transport failure it returns no data, and an empty texture
list in an otherwise-successful response is treated as no usable data, the
same as a transient failure (spec sections 4.2 and 7 item 3). The raw service
response, none for transport failure, is the argument. -/
def FetchSubmapTextures (response : Option SubmapTextures) : Option SubmapTextures :=
  match response with
  | none => none
  | some t => if t.textures.isEmpty then none else some t

/-- Minimum delay between two fetch attempts for one submap
(drawable_submap.cc kMinQueryDelayInMs), in milliseconds. -/
def kMinQueryDelayInMs : ℤ := 250

/-- State of one DrawableSubmap that Update, MaybeFetchTexture and the fetch
task read and write under the object's mutex (drawable_submap.h). Timestamps
are milliseconds since the epoch as in the source; the pose is carried as an
opaque handle. -/
structure DrawableSubmapState where
  metadata_version : ℤ
  pose : ℤ
  submap_textures : Option SubmapTextures
  last_query_timestamp : ℤ
  query_in_progress : Bool
deriving DecidableEq

/-- DrawableSubmap::Update: store the metadata version and pose delivered by
the submap list subscription (the scene-node and property side effects are
outside the model). -/
def Update (s : DrawableSubmapState) (metadata_version pose : ℤ) : DrawableSubmapState :=
  { s with metadata_version := metadata_version, pose := pose }

/-- DrawableSubmap::MaybeFetchTexture up to the point the lock is released:
decide whether to fetch and, when fetching, record the attempt timestamp and
set the in-flight flag. Returns the source's return value together with the
state at lock release; the spawned task body is fetchTaskRun below. -/
def MaybeFetchTexture (s : DrawableSubmapState) (now : ℤ) : Bool × DrawableSubmapState :=
  let newer_version_available : Bool :=
    match s.submap_textures with
    | none => true
    | some t => decide (t.version ≠ s.metadata_version)
  let recently_queried : Bool :=
    decide (s.last_query_timestamp + kMinQueryDelayInMs > now)
  if !newer_version_available || recently_queried || s.query_in_progress then
    (false, s)
  else
    (true, { s with query_in_progress := true, last_query_timestamp := now })

/-- Body of the std::async task spawned by DrawableSubmap::MaybeFetchTexture:
call FetchSubmapTextures, then under the mutex clear the in-flight flag and,
only when the call returned data with a non-empty texture list, install it
and emit RequestSucceeded. Returns the state after the task ran and whether
the signal was emitted. -/
def fetchTaskRun (s : DrawableSubmapState) (response : Option SubmapTextures) :
    DrawableSubmapState × Bool :=
  let fetched := FetchSubmapTextures response
  let s1 := { s with query_in_progress := false }
  match fetched with
  | none => (s1, false)
  | some t =>
      if t.textures.isEmpty then (s1, false)
      else ({ s1 with submap_textures := some t }, true)

/-- Fade start distance of drawable_submap.cc (kFadeOutStartDistanceInMeters). -/
def kFadeOutStartDistanceInMeters : ℚ := 1

/-- Fade band width of drawable_submap.cc (kFadeOutDistanceInMeters). -/
def kFadeOutDistanceInMeters : ℚ := 2

/-- Alpha hysteresis threshold of drawable_submap.cc (kAlphaUpdateThreshold,
0.2f in the source, modelled exactly). -/
def kAlphaUpdateThreshold : ℚ := 1 / 5

/-- Target alpha computed by DrawableSubmap::SetAlpha: full opacity within the
fade-out start distance of vertical separation, then a linear fade clamped at
zero over the fade band. -/
def targetAlpha (pose_z current_tracking_z : ℚ) : ℚ :=
  let distance_z := |pose_z - current_tracking_z|
  let fade_distance := max (distance_z - kFadeOutStartDistanceInMeters) 0
  max 0 (1 - fade_distance / kFadeOutDistanceInMeters)

/-- Hysteresis step of DrawableSubmap::SetAlpha: keep the previous alpha
unless the target moved by more than kAlphaUpdateThreshold or is exactly 0 or
exactly 1. -/
def alphaUpdate (current_alpha target_alpha : ℚ) : ℚ :=
  if |target_alpha - current_alpha| > kAlphaUpdateThreshold ∨
      target_alpha = 0 ∨ target_alpha = 1 then
    target_alpha
  else current_alpha

/-- DrawableSubmap::SetAlpha as a function of the stored alpha and the two z
coordinates: the alpha handed to the renderer and stored back. -/
def SetAlpha (current_alpha pose_z current_tracking_z : ℚ) : ℚ :=
  alphaUpdate current_alpha (targetAlpha pose_z current_tracking_z)

/-- One entry of the SubmapList message (SubmapEntry.msg); the pose is carried
as an opaque handle. -/
structure SubmapEntry where
  trajectory_id : ℤ
  submap_index : ℤ
  submap_version : ℤ
  pose : ℤ
deriving DecidableEq

/-- cartographer::io::SubmapSlice as the occupancy-grid node uses it: surface
is the packed pixel buffer the cairo surface wraps (none for nullptr);
version is the texture version the surface corresponds to (uninitialised in
the source and never read before the first fetch stores it; defaulted to 0
here). -/
structure SubmapSlice where
  pose : ℤ := 0
  metadata_version : ℤ := 0
  version : ℤ := 0
  width : ℕ := 0
  height : ℕ := 0
  slice_pose : ℤ := 0
  resolution : ℚ := 0
  cairo_data : List ℕ := []
  surface : Option (List ℕ) := none
deriving DecidableEq

/-- Pixel buffer built by the packing loop in Node::HandleSubmapList; the
source indexes intensity and alpha at the same positions over the intensity
length, the two rows having equal length by the texture invariant. -/
def cairoData (intensity alpha : List ℕ) : List ℕ :=
  List.zipWith packPixel intensity alpha

/-- Body of the per-entry loop of Node::HandleSubmapList. The raw service
response this entry's FetchSubmapTextures call would see is the last
argument. In the result, none means the CHECK against an empty fetched
texture list aborted the process; the boolean records whether a remote fetch
was issued for this entry. -/
def processSubmapEntry (slice0 : SubmapSlice) (entry : SubmapEntry)
    (response : Option SubmapTextures) : Option SubmapSlice × Bool :=
  let slice :=
    { slice0 with pose := entry.pose, metadata_version := entry.submap_version }
  if slice.surface.isSome ∧ slice.version = entry.submap_version then
    (some slice, false)
  else
    match FetchSubmapTextures response with
    | none => (some slice, true)
    | some fetched =>
        match fetched.textures with
        | [] => (none, true)
        | tex :: _ =>
            (some { slice with
                      version := fetched.version,
                      width := tex.width,
                      height := tex.height,
                      slice_pose := tex.slice_pose,
                      resolution := tex.resolution,
                      cairo_data := cairoData tex.intensity tex.alpha,
                      surface := some (cairoData tex.intensity tex.alpha) },
              true)

/-- State of the occupancy-grid node that HandleSubmapList touches. The slice
table std::map is modelled as an association list keyed by
(trajectory_id, submap_index). -/
structure NodeState where
  submap_slices : List ((ℤ × ℤ) × SubmapSlice)
  last_frame_id : String
  last_timestamp : ℤ
deriving DecidableEq

/-- std::map operator[] read half: the entry for the id, default-constructed
when absent. -/
def getSlice (slices : List ((ℤ × ℤ) × SubmapSlice)) (id : ℤ × ℤ) : SubmapSlice :=
  match slices.find? (fun p => decide (p.1 = id)) with
  | some p => p.2
  | none => {}

/-- std::map operator[] write half: replace the entry for the id, appending
when absent. -/
def setSlice (slices : List ((ℤ × ℤ) × SubmapSlice)) (id : ℤ × ℤ)
    (s : SubmapSlice) : List ((ℤ × ℤ) × SubmapSlice) :=
  if slices.any (fun p => decide (p.1 = id)) then
    slices.map (fun p => if p.1 = id then (id, s) else p)
  else slices ++ [(id, s)]

/-- Loop of Node::HandleSubmapList over the message entries; responses maps a
submap id to the raw service response its fetch would see. Returns none on
abort, otherwise the updated slice table and the ids fetched, in order. -/
def processSubmapEntries (responses : ℤ × ℤ → Option SubmapTextures) :
    List SubmapEntry → List ((ℤ × ℤ) × SubmapSlice) →
    Option (List ((ℤ × ℤ) × SubmapSlice) × List (ℤ × ℤ))
  | [], slices => some (slices, [])
  | entry :: rest, slices =>
      let id := (entry.trajectory_id, entry.submap_index)
      match processSubmapEntry (getSlice slices id) entry (responses id) with
      | (none, _) => none
      | (some slice, fetched) =>
          match processSubmapEntries responses rest (setSlice slices id slice) with
          | none => none
          | some (slices2, ids) =>
              some (slices2, if fetched then id :: ids else ids)

/-- Node::HandleSubmapList: under the mutex, return at once when nobody
subscribes to the occupancy grid; otherwise update every slice of the
message, fetching where needed, then record the message header. Returns none
when a CHECK aborted, otherwise the new state and the ids for which a fetch
was issued. -/
def HandleSubmapList (st : NodeState) (num_subscribers : ℕ)
    (header_frame_id : String) (header_stamp : ℤ) (entries : List SubmapEntry)
    (responses : ℤ × ℤ → Option SubmapTextures) :
    Option (NodeState × List (ℤ × ℤ)) :=
  if num_subscribers = 0 then some (st, [])
  else
    match processSubmapEntries responses entries st.submap_slices with
    | none => none
    | some (slices, ids) =>
        some ({ submap_slices := slices, last_frame_id := header_frame_id,
                last_timestamp := header_stamp }, ids)

end Cartographer

namespace Cartographer

theorem packPixel_color (i a : ℕ) (hi : i < 256) (ha : a < 256) :
    packPixel i a / 2 ^ 16 % 256 = i := by
  unfold packPixel observedByte
  split <;> omega

theorem packPixel_observed (i a : ℕ) (hi : i < 256) (ha : a < 256) :
    packPixel i a / 2 ^ 8 % 256 = observedByte i a := by
  unfold packPixel observedByte
  split <;> omega

theorem cellValue_packPixel (i a : ℕ) (hi : i < 256) (ha : a < 256) :
    cellValue (packPixel i a) =
      if i = 0 ∧ a = 0 then -1 else RoundToInt ((1 - (i : ℚ) / 255) * 100) := by
  simp only [cellValue]
  rw [packPixel_color i a hi ha, packPixel_observed i a hi ha]
  unfold observedByte
  by_cases h : i = 0 ∧ a = 0
  · simp [h]
  · simp [h]

theorem RoundToInt_of_nonneg (x : ℚ) (hx : 0 ≤ x) : RoundToInt x = ⌊x + 1 / 2⌋ := by
  unfold RoundToInt
  rw [if_pos hx]

theorem roundOccupancy_mem (c : ℕ) (hc : c < 256) :
    0 ≤ RoundToInt ((1 - (c : ℚ) / 255) * 100) ∧
      RoundToInt ((1 - (c : ℚ) / 255) * 100) ≤ 100 := by
  have hc255 : (c : ℚ) ≤ 255 := by
    have : c ≤ 255 := by omega
    exact_mod_cast this
  have hcq : (0 : ℚ) ≤ (c : ℚ) / 255 := by positivity
  have hc1 : (c : ℚ) / 255 ≤ 1 := by
    rw [div_le_one (by norm_num)]
    exact hc255
  have hx0 : (0 : ℚ) ≤ (1 - (c : ℚ) / 255) * 100 := by nlinarith
  have hx1 : (1 - (c : ℚ) / 255) * 100 ≤ 100 := by nlinarith
  rw [RoundToInt_of_nonneg _ hx0]
  constructor
  · exact Int.le_floor.mpr (by push_cast; linarith)
  · have hlt : ⌊(1 - (c : ℚ) / 255) * 100 + 1 / 2⌋ < 101 := by
      rw [Int.floor_lt]
      push_cast
      linarith
    omega

theorem roundOccupancy_at_zero : RoundToInt ((1 - (0 : ℚ) / 255) * 100) = 100 := by
  rw [RoundToInt_of_nonneg _ (by norm_num)]
  rw [Int.floor_eq_iff]
  norm_num

theorem roundOccupancy_at_full : RoundToInt ((1 - (255 : ℚ) / 255) * 100) = 0 := by
  rw [RoundToInt_of_nonneg _ (by norm_num)]
  rw [show (1 - (255 : ℚ) / 255) * 100 + 1 / 2 = 1 / 2 by norm_num]
  rw [Int.floor_eq_zero_iff.mpr (by constructor <;> norm_num)]

/-- C1: for every packed pixel of the published occupancy grid, an unobserved
pixel (intensity byte 0 and alpha byte 0) reads -1, and every other pixel
reads RoundToInt((1 - intensity/255) * 100); in particular intensity 0 with
alpha 0 yields -1, intensity 255 with nonzero alpha yields 0, and intensity 0
with nonzero alpha yields 100. -/
theorem occupancy_value_mapping (i a : ℕ) (hi : i < 256) (ha : a < 256) :
    (cellValue (packPixel i a) =
        if i = 0 ∧ a = 0 then -1 else RoundToInt ((1 - (i : ℚ) / 255) * 100)) ∧
      cellValue (packPixel 0 0) = -1 ∧
      (a ≠ 0 → cellValue (packPixel 255 a) = 0 ∧ cellValue (packPixel 0 a) = 100) := by
  refine ⟨cellValue_packPixel i a hi ha, ?_, ?_⟩
  · rw [cellValue_packPixel 0 0 (by norm_num) (by norm_num)]
    simp
  · intro h
    constructor
    · rw [cellValue_packPixel 255 a (by norm_num) ha]
      rw [if_neg (by simp [h])]
      push_cast
      exact roundOccupancy_at_full
    · rw [cellValue_packPixel 0 a (by norm_num) ha]
      rw [if_neg (by simp [h])]
      push_cast
      exact roundOccupancy_at_zero

theorem occupancy_value_mapping_witness : cellValue (packPixel 0 1) = 100 :=
  ((occupancy_value_mapping 0 1 (by norm_num) (by norm_num)).2.2 (by norm_num)).2

/-- C9: every published cell value lies in the set -1 together with 0..100 —
for any packed surface pixel, byte-decoded or composited, the observed value
RoundToInt((1 - color/255) * 100) lies in 0..100 and the unobserved value is
-1 — so the fatal range checks CHECK_LE(-1, value) and CHECK_GE(100, value)
never fire, and a hypothetical out-of-range value would abort the publish
(none), never be silently clamped. -/
theorem occupancy_value_range (packed : ℕ) :
    publishCell packed = some (cellValue packed) ∧
      (cellValue packed = -1 ∨
        0 ≤ cellValue packed ∧ cellValue packed ≤ 100) ∧
      ∀ v : ℤ, v < -1 ∨ 100 < v → checkValueRange v = none := by
  have hrange : cellValue packed = -1 ∨
      0 ≤ cellValue packed ∧ cellValue packed ≤ 100 := by
    simp only [cellValue]
    by_cases h : packed / 2 ^ 8 % 256 = 0
    · left
      rw [if_pos h]
    · right
      rw [if_neg h]
      exact roundOccupancy_mem _ (Nat.mod_lt _ (by norm_num))
  refine ⟨?_, hrange, ?_⟩
  · unfold publishCell checkValueRange
    rcases hrange with h | ⟨h1, h2⟩
    · rw [if_pos (by omega)]
    · rw [if_pos ⟨by omega, h2⟩]
  · intro v hv
    unfold checkValueRange
    rw [if_neg (by rintro ⟨h1, h2⟩; rcases hv with h | h <;> omega)]

theorem occupancy_value_range_witness :
    publishCell (packPixel 128 1) = some (cellValue (packPixel 128 1)) :=
  (occupancy_value_range (packPixel 128 1)).1

end Cartographer

namespace Cartographer

theorem maybeFetch_cases (s : DrawableSubmapState) (now : ℤ) :
    MaybeFetchTexture s now = (false, s) ∨
      MaybeFetchTexture s now =
        (true, { s with query_in_progress := true, last_query_timestamp := now }) := by
  simp only [MaybeFetchTexture]
  repeat' split
  all_goals first
  | exact Or.inl rfl
  | exact Or.inr rfl

theorem maybeFetch_false_iff (s : DrawableSubmapState) (now : ℤ) :
    (MaybeFetchTexture s now).1 = false ↔
      (∃ t, s.submap_textures = some t ∧ t.version = s.metadata_version) ∨
        now < s.last_query_timestamp + kMinQueryDelayInMs ∨
        s.query_in_progress = true := by
  unfold MaybeFetchTexture
  rcases hmt : s.submap_textures with _ | t
  · by_cases hq : s.query_in_progress <;>
      by_cases hr : now < s.last_query_timestamp + kMinQueryDelayInMs <;>
        simp [hq, hr]
  · by_cases hv : t.version = s.metadata_version <;>
      by_cases hq : s.query_in_progress <;>
        by_cases hr : now < s.last_query_timestamp + kMinQueryDelayInMs <;>
          simp [hv, hq, hr]

/-- C2: MaybeFetchTexture returns false with no state change exactly when the
cached texture version equals the current metadata version, less than the
250 ms minimum delay has elapsed since the last attempt, or a fetch is
already in flight; otherwise it returns true and the state at lock release
carries the attempt timestamp and the set in-flight flag. -/
theorem maybe_fetch_texture_contract (s : DrawableSubmapState) (now : ℤ) :
    ((MaybeFetchTexture s now).1 = false ↔
        (∃ t, s.submap_textures = some t ∧ t.version = s.metadata_version) ∨
          now < s.last_query_timestamp + kMinQueryDelayInMs ∨
          s.query_in_progress = true) ∧
      ((MaybeFetchTexture s now).1 = false → (MaybeFetchTexture s now).2 = s) ∧
      ((MaybeFetchTexture s now).1 = true →
        (MaybeFetchTexture s now).2 =
          { s with query_in_progress := true, last_query_timestamp := now }) := by
  refine ⟨maybeFetch_false_iff s now, ?_, ?_⟩ <;>
    intro h <;>
      rcases maybeFetch_cases s now with hc | hc <;>
        rw [hc] at h ⊢ <;> simp_all

/-- C3: a cached texture version different from the delivered metadata
version — in particular a strictly lower one, as after a backend restart — is
treated as a newer version being available: MaybeFetchTexture fetches (absent
throttling and an in-flight fetch), and the occupancy-grid node's per-entry
loop issues a fetch whenever the slice version differs from the message
version; neither path rejects a lower version as stale. -/
theorem version_change_is_fetch_eligible (s : DrawableSubmapState)
    (t : SubmapTextures) (now : ℤ) (hc : s.submap_textures = some t)
    (hv : t.version ≠ s.metadata_version)
    (hr : s.last_query_timestamp + kMinQueryDelayInMs ≤ now)
    (hq : s.query_in_progress = false) :
    (MaybeFetchTexture s now).1 = true ∧
      ∀ (slice : SubmapSlice) (e : SubmapEntry) (r : Option SubmapTextures),
        slice.version ≠ e.submap_version → (processSubmapEntry slice e r).2 = true := by
  constructor
  · unfold MaybeFetchTexture
    rw [hc, hq]
    simp [hv, not_lt.mpr hr]
  · intro slice e r hne
    simp only [processSubmapEntry]
    rw [if_neg (by rintro ⟨h1, h2⟩; exact hne h2)]
    rcases FetchSubmapTextures r with _ | f
    · rfl
    · rcases htex : f.textures with _ | ⟨tex, rest⟩ <;> simp [htex]

theorem version_change_is_fetch_eligible_witness :
    (MaybeFetchTexture ⟨2, 0, some ⟨1, []⟩, 0, false⟩ 250).1 = true :=
  (version_change_is_fetch_eligible ⟨2, 0, some ⟨1, []⟩, 0, false⟩ ⟨1, []⟩ 250 rfl
    (by decide) (by decide) rfl).1

/-- C4: a successful response carrying an empty texture list is handled
exactly like a transient fetch failure: the rviz fetch task ends in the same
state as on failure — nothing installed, no signal emitted, the in-flight
flag cleared so a later retry stays possible — and the occupancy-grid node's
per-entry loop does not abort and leaves the slice's texture version and
surface unchanged. -/
theorem empty_texture_list_is_no_data (s : DrawableSubmapState) (v : ℤ)
    (slice : SubmapSlice) (entry : SubmapEntry) :
    fetchTaskRun s (some ⟨v, []⟩) = fetchTaskRun s none ∧
      (fetchTaskRun s (some ⟨v, []⟩)).1 = { s with query_in_progress := false } ∧
      (fetchTaskRun s (some ⟨v, []⟩)).2 = false ∧
      processSubmapEntry slice entry (some ⟨v, []⟩) =
        processSubmapEntry slice entry none ∧
      ((processSubmapEntry slice entry (some ⟨v, []⟩)).1).isSome = true ∧
      ∀ result, (processSubmapEntry slice entry (some ⟨v, []⟩)).1 = some result →
        result.version = slice.version ∧ result.surface = slice.surface ∧
          result.cairo_data = slice.cairo_data := by
  refine ⟨rfl, rfl, rfl, rfl, ?_, ?_⟩
  · simp only [processSubmapEntry, FetchSubmapTextures]
    split_ifs <;> simp_all
  · intro result hres
    simp only [processSubmapEntry, FetchSubmapTextures] at hres
    split_ifs at hres <;> simp_all <;> subst hres <;> exact ⟨rfl, rfl, rfl⟩

/-- C5: SetAlpha keeps the previous alpha unless the computed target differs
from it by more than the 0.2 threshold or the target is exactly 0 or exactly
1; with previous alpha 0.5 and a target of 0.55 the stored alpha stays 0.5,
and a target of exactly 0 is always stored. -/
theorem set_alpha_hysteresis (current target pose_z tracking_z : ℚ) :
    (|target - current| ≤ kAlphaUpdateThreshold → target ≠ 0 → target ≠ 1 →
        alphaUpdate current target = current) ∧
      (|target - current| > kAlphaUpdateThreshold ∨ target = 0 ∨ target = 1 →
        alphaUpdate current target = target) ∧
      SetAlpha current pose_z tracking_z =
        alphaUpdate current (targetAlpha pose_z tracking_z) ∧
      alphaUpdate (1 / 2) (11 / 20) = 1 / 2 ∧
      alphaUpdate current 0 = 0 := by
  refine ⟨?_, ?_, rfl, ?_, ?_⟩
  · intro h1 h2 h3
    unfold alphaUpdate
    rw [if_neg (by rintro (h | h | h); exacts [absurd h (not_lt.mpr h1), h2 h, h3 h])]
  · intro h
    unfold alphaUpdate
    rw [if_pos h]
  · have h20 : |(11 / 20 : ℚ) - 1 / 2| = 1 / 20 := by
      rw [show (11 / 20 : ℚ) - 1 / 2 = 1 / 20 by norm_num]
      rw [abs_of_nonneg (by norm_num)]
    unfold alphaUpdate kAlphaUpdateThreshold
    rw [if_neg (by rw [h20]; norm_num)]
  · unfold alphaUpdate
    rw [if_pos (Or.inr (Or.inl rfl))]

/-- C6: every completing fetch task clears the in-flight flag, whether the
fetch produced data or failed, so a failed fetch never leaves the submap
permanently un-fetchable. -/
theorem fetch_completion_clears_in_flight (s : DrawableSubmapState)
    (response : Option SubmapTextures) :
    (fetchTaskRun s response).1.query_in_progress = false := by
  simp only [fetchTaskRun]
  rcases hf : FetchSubmapTextures response with _ | t
  · rfl
  · by_cases h : t.textures.isEmpty <;> simp [h]

/-- C7: the completing fetch task installs the new texture and emits
RequestSucceeded exactly when the fetch returned data with at least one
texture, and the state in which the signal is emitted already holds the
installed texture — installation precedes notification, so a consumer
reacting to the signal observes the fully-installed texture; without a
signal the cached texture is unchanged. -/
theorem install_before_notify (s : DrawableSubmapState)
    (response : Option SubmapTextures) :
    ((fetchTaskRun s response).2 = true ↔
        ∃ t, FetchSubmapTextures response = some t ∧ t.textures ≠ []) ∧
      ((fetchTaskRun s response).2 = true →
        (fetchTaskRun s response).1.submap_textures = FetchSubmapTextures response) ∧
      ((fetchTaskRun s response).2 = false →
        (fetchTaskRun s response).1.submap_textures = s.submap_textures) := by
  simp only [fetchTaskRun]
  rcases hf : FetchSubmapTextures response with _ | t
  · simp
  · rcases htex : t.textures with _ | ⟨x, xs⟩ <;> simp [htex]

/-- C8: after MaybeFetchTexture returns true the in-flight flag is set, and
any call made while the flag is set returns false and changes nothing, so at
most one fetch is ever in flight per submap until the completing task clears
the flag; a metadata update does not touch the flag. -/
theorem at_most_one_fetch_in_flight (s : DrawableSubmapState) (now : ℤ) :
    ((MaybeFetchTexture s now).1 = true →
        (MaybeFetchTexture s now).2.query_in_progress = true) ∧
      (s.query_in_progress = true → MaybeFetchTexture s now = (false, s)) ∧
      ∀ mv p, (Update s mv p).query_in_progress = s.query_in_progress := by
  refine ⟨?_, ?_, fun mv p => rfl⟩
  · intro h
    rcases maybeFetch_cases s now with hc | hc <;> rw [hc] at h ⊢ <;> simp_all
  · intro h
    simp [MaybeFetchTexture, h]

/-- C10: with zero subscribers on the occupancy-grid topic, HandleSubmapList
returns right after the subscriber check: the slice table with its poses,
versions and surfaces and the recorded header fields are all unchanged, and
no fetch is issued for any entry of the message. -/
theorem no_subscribers_is_noop (st : NodeState) (frame : String) (stamp : ℤ)
    (entries : List SubmapEntry) (responses : ℤ × ℤ → Option SubmapTextures) :
    HandleSubmapList st 0 frame stamp entries responses = some (st, []) := rfl

end Cartographer
